import Mathlib

/-!
Shallow embedding of the book-link generator (src/main.py) and proofs of the
spec's claims about it.  Strings from the program are modelled as Lean
`String`/`List Char`; nullable CSV cells as `Option String`; the network as an
explicit environment (`Env`) mapping URLs to fetch outcomes; HTML parsing as an
abstract selector function from CSS-selector strings to the href attributes of
the matched elements, in document order.
-/

namespace BookLink

/-- ASCII whitespace as matched by Python str.strip and the regex class \s. -/
def isSpaceChar (c : Char) : Bool :=
  c == ' ' || c == '\t' || c == '\n' || c == '\x0d' || c == '\x0b' || c == '\x0c'

/-- Python str.strip(): drop leading and trailing whitespace. -/
def pyStrip (s : List Char) : List Char :=
  ((s.dropWhile isSpaceChar).reverse.dropWhile isSpaceChar).reverse

/-- Helper of `collapseSpaces`: the flag records whether the previous
character belonged to a whitespace run already replaced by one space. -/
def collapseAux : Bool → List Char → List Char
  | _, [] => []
  | inRun, c :: rest =>
    if isSpaceChar c then
      if inRun then collapseAux true rest else ' ' :: collapseAux true rest
    else c :: collapseAux false rest

/-- re.sub of one-or-more whitespace by a single space, as in clean_text:
each maximal whitespace run becomes one space. -/
def collapseSpaces (s : List Char) : List Char := collapseAux false s

/-- clean_text (src/main.py:13-17): NaN to empty string, otherwise strip and
collapse internal whitespace runs to single spaces.  A NaN cell is `none`. -/
def clean_text : Option String → String
  | none => ""
  | some s => String.mk (collapseSpaces (pyStrip s.data))

/-- ASCII decimal digit, the regex class \d on the inputs in play. -/
def isDigitChar (c : Char) : Bool := '0' ≤ c && c ≤ '9'

/-- re.sub removing hyphens and whitespace, as in is_valid_isbn. -/
def stripIsbn (s : List Char) : List Char :=
  s.filter (fun c => !(c == '-' || isSpaceChar c))

/-- Matcher for a run of n digits; returns the remaining input on success. -/
def dropDigits : Nat → List Char → Option (List Char)
  | 0, rest => some rest
  | _ + 1, [] => none
  | n + 1, c :: rest => if isDigitChar c then dropDigits n rest else none

/-- The anchored regex of the 10-character branch: nine digits then a digit
or the letter X. -/
def isbn10Match (t : List Char) : Bool :=
  match dropDigits 9 t with
  | some [c] => isDigitChar c || c == 'X'
  | _ => false

/-- is_valid_isbn (src/main.py:20-27). -/
def is_valid_isbn (s : String) : Bool :=
  let isbn := stripIsbn s.data
  if isbn.length = 10 then isbn10Match isbn
  else if isbn.length = 13 then isbn.all isDigitChar
  else false

/-- The claim's characterization of a valid identifier: after stripping
hyphens and whitespace, either 10 characters with nine digits then a digit or
X, or 13 characters all digits. -/
def isbnSpecValid (s : String) : Prop :=
  let t := stripIsbn s.data
  (t.length = 10 ∧ (t.take 9).all isDigitChar = true ∧
      (t.drop 9).all (fun c => isDigitChar c || c == 'X') = true) ∨
    (t.length = 13 ∧ t.all isDigitChar = true)

lemma dropDigits_eq_some (n : Nat) (t r : List Char) :
    dropDigits n t = some r ↔
      (t.take n).length = n ∧ (t.take n).all isDigitChar = true ∧ r = t.drop n := by
  induction n generalizing t r with
  | zero => simp [dropDigits, eq_comm]
  | succ n ih =>
    cases t with
    | nil => simp [dropDigits]
    | cons c rest =>
      simp only [dropDigits, List.take_succ_cons, List.drop_succ_cons,
        List.length_cons, List.all_cons]
      by_cases hc : isDigitChar c = true
      · simp [hc, ih, and_assoc]
      · simp [hc]

lemma isbn10Match_iff (t : List Char) (hlen : t.length = 10) :
    isbn10Match t = true ↔
      (t.take 9).all isDigitChar = true ∧
        (t.drop 9).all (fun c => isDigitChar c || c == 'X') = true := by
  unfold isbn10Match
  have hdroplen : (t.drop 9).length = 1 := by
    simp [List.length_drop, hlen]
  obtain ⟨c, hc⟩ : ∃ c, t.drop 9 = [c] := by
    cases hdrop : t.drop 9 with
    | nil => rw [hdrop] at hdroplen; simp at hdroplen
    | cons c rest =>
      rw [hdrop] at hdroplen
      simp at hdroplen
      exact ⟨c, by simp [hdroplen]⟩
  have htakelen : (t.take 9).length = 9 := by
    simp [List.length_take, hlen]
  cases hmatch : dropDigits 9 t with
  | none =>
    constructor
    · intro h; simp at h
    · rintro ⟨hall, -⟩
      have hsome : dropDigits 9 t = some (t.drop 9) :=
        (dropDigits_eq_some 9 t (t.drop 9)).mpr ⟨htakelen, hall, rfl⟩
      rw [hmatch] at hsome
      cases hsome
  | some r =>
    rw [dropDigits_eq_some] at hmatch
    obtain ⟨-, hall, hr⟩ := hmatch
    subst hr
    rw [hc]
    simp [hall]

/-- C4: is_valid_isbn accepts exactly the strings whose hyphen-and-whitespace
stripped form is 10 characters (nine digits then digit or X) or 13 digits;
"0-13-468599-7" is accepted and "12345" is rejected. -/
theorem is_valid_isbn_spec :
    (∀ s : String, is_valid_isbn s = true ↔ isbnSpecValid s) ∧
      is_valid_isbn "0-13-468599-7" = true ∧ is_valid_isbn "12345" = false := by
  refine ⟨fun s => ?_, by decide, by decide⟩
  unfold is_valid_isbn isbnSpecValid
  by_cases h10 : (stripIsbn s.data).length = 10
  · simp [h10, isbn10Match_iff _ h10]
  · by_cases h13 : (stripIsbn s.data).length = 13
    · simp [h10, h13]
    · simp [h10, h13]

/-- One CSV row: the columns Book Title, Author, Yr, Ed, UPC.  A missing or
NaN cell is `none`. -/
structure Row where
  title : Option String
  author : Option String
  yr : Option String
  ed : Option String
  upc : Option String
deriving DecidableEq

/-- The guard `not pd.isna(cell) and str(cell).strip()`: the cell is present
and its stripped text is non-empty. -/
def cellPresent : Option String → Bool
  | none => false
  | some s => !(pyStrip s.data).isEmpty

/-- Python str.strip on a String. -/
def pyStripStr (s : String) : String := String.mk (pyStrip s.data)

/-- Python str.lower, ASCII case folding. -/
def lowerStr (s : String) : String := String.mk (s.data.map Char.toLower)

/-- UTF-8 encoding of one character, as byte values. -/
def utf8Nat (c : Char) : List Nat :=
  let n := c.toNat
  if n < 128 then [n]
  else if n < 2048 then [192 + n / 64, 128 + n % 64]
  else if n < 65536 then [224 + n / 4096, 128 + (n / 64) % 64, 128 + n % 64]
  else [240 + n / 262144, 128 + (n / 4096) % 64, 128 + (n / 64) % 64, 128 + n % 64]

/-- Bytes urllib.parse.quote leaves unencoded with the default safe set:
ASCII letters, digits, underscore, period, hyphen, tilde and the slash. -/
def quoteSafeByte (b : Nat) : Bool :=
  (65 ≤ b && b ≤ 90) || (97 ≤ b && b ≤ 122) || (48 ≤ b && b ≤ 57) ||
    b == 95 || b == 46 || b == 45 || b == 126 || b == 47

/-- Uppercase hex digit of a value below 16. -/
def hexUpper (n : Nat) : Char :=
  if n < 10 then Char.ofNat (48 + n) else Char.ofNat (55 + n)

/-- Percent-encoding of one byte. -/
def quoteByte (b : Nat) : List Char :=
  if quoteSafeByte b then [Char.ofNat b] else ['%', hexUpper (b / 16), hexUpper (b % 16)]

/-- urllib.parse.quote with the default safe set, over the UTF-8 bytes. -/
def pyQuote (s : String) : String :=
  String.mk ((s.data.flatMap utf8Nat).flatMap quoteByte)

/-- Python " ".join. -/
def joinSpace : List String → String
  | [] => ""
  | [s] => s
  | s :: rest => s ++ " " ++ joinSpace rest

/-- th-suffix test: `edition.lower().endswith("th")` on the stripped cell. -/
def editionEndsTh (edition : String) : Bool :=
  ['t', 'h'].isSuffixOf ((lowerStr edition).data)

/-- The ordered part collection of create_search_url (src/main.py:72-86). -/
def create_search_parts (row : Row) : List String :=
  (if cellPresent row.title then [clean_text row.title] else []) ++
    (if cellPresent row.author then [clean_text row.author] else []) ++
      (if cellPresent row.yr then [row.yr.getD ""] else []) ++
        (if cellPresent row.ed then
          (let edition := pyStripStr (row.ed.getD "")
           if editionEndsTh edition then [edition ++ " edition"] else [])
         else [])

/-- create_search_url (src/main.py:70-93). -/
def create_search_url (row : Row) : String :=
  let parts := create_search_parts row
  if parts.isEmpty then ""
  else "https://www.amazon.com/s?k=" ++ pyQuote (joinSpace parts) ++ "&i=stripbooks"

/-- The claim's reading of the token collection: a fixed-order list of
optional tokens — cleaned title, cleaned author, year as plain text, and an
edition phrase only when the normalized edition ends in th — with the absent
ones dropped. -/
def specSearchTokens (row : Row) : List String :=
  [if cellPresent row.title then some (clean_text row.title) else none,
   if cellPresent row.author then some (clean_text row.author) else none,
   if cellPresent row.yr then some (row.yr.getD "") else none,
   if cellPresent row.ed && editionEndsTh (pyStripStr (row.ed.getD "")) then
     some (pyStripStr (row.ed.getD "") ++ " edition")
   else none].reduceOption

/-- The record of the spec's build_query example. -/
def hobbitRow : Row :=
  { title := some "The Hobbit", author := some "Tolkien", yr := some "1997",
    ed := some "4th", upc := none }

/-- A record with every field empty. -/
def emptyRow : Row :=
  { title := none, author := none, yr := none, ed := none, upc := none }

lemma create_search_parts_eq_spec (row : Row) :
    create_search_parts row = specSearchTokens row := by
  unfold create_search_parts specSearchTokens
  cases ht : cellPresent row.title <;>
    cases ha : cellPresent row.author <;>
      cases hy : cellPresent row.yr <;>
        cases he : cellPresent row.ed <;>
          simp [List.reduceOption_cons_of_some, List.reduceOption_cons_of_none] <;>
            cases hth : editionEndsTh (pyStripStr (row.ed.getD "")) <;>
              simp [List.reduceOption_cons_of_some, List.reduceOption_cons_of_none]

/-- C5: the query parts are the claim's fixed-order tokens with absent fields
skipped; the URL is empty when no token is collected and otherwise the
space-joined, percent-encoded tokens in the books-scoped search endpoint; the
Hobbit record yields the four expected tokens and an all-empty record yields
no URL. -/
theorem create_search_url_spec :
    (∀ row : Row, create_search_parts row = specSearchTokens row) ∧
      (∀ row : Row,
        create_search_url row =
          if specSearchTokens row = [] then ""
          else "https://www.amazon.com/s?k=" ++
            pyQuote (joinSpace (specSearchTokens row)) ++ "&i=stripbooks") ∧
      create_search_parts hobbitRow = ["The Hobbit", "Tolkien", "1997", "4th edition"] ∧
      create_search_url hobbitRow =
        "https://www.amazon.com/s?k=The%20Hobbit%20Tolkien%201997%204th%20edition&i=stripbooks" ∧
      create_search_url emptyRow = "" := by
  refine ⟨create_search_parts_eq_spec, fun row => ?_, by decide, by decide, by decide⟩
  unfold create_search_url
  rw [create_search_parts_eq_spec]
  rcases h : specSearchTokens row with - | ⟨t, rest⟩ <;> simp [h]

/-- The marker "/dp/". -/
def dpChars : List Char := ['/', 'd', 'p', '/']

/-- The marker "/gp/product/". -/
def gpChars : List Char := ['/', 'g', 'p', '/', 'p', 'r', 'o', 'd', 'u', 'c', 't', '/']

/-- The looser substring "dp/" checked against a final URL in process_book. -/
def dpLoose : List Char := ['d', 'p', '/']

/-- A character of the regex class [A-Z0-9]. -/
def isCodeChar (c : Char) : Bool := ('A' ≤ c && c ≤ 'Z') || ('0' ≤ c && c ≤ '9')

/-- An ASCII lowercase letter. -/
def isLowerAlpha (c : Char) : Bool := 'a' ≤ c && c ≤ 'z'

/-- Python substring containment, `pat in s`. -/
def listContains (pat : List Char) : List Char → Bool
  | [] => pat.isEmpty
  | c :: rest => pat.isPrefixOf (c :: rest) || listContains pat rest

/-- If pat is a literal leading part of s, the remainder of s after it. -/
def takeAfter : List Char → List Char → Option (List Char)
  | [], rest => some rest
  | _ :: _, [] => none
  | p :: ps, c :: cs => if c == p then takeAfter ps cs else none

/-- The regex group ([A-Z0-9]\x7b10\x7d): ten code characters here. -/
def codeHere (s : List Char) : Option (List Char) :=
  let code := s.take 10
  if code.length = 10 && code.all isCodeChar then some code else none

/-- One anchored try of the pattern /(dp|gp/product)/([A-Z0-9]\x7b10\x7d) at
the start of s. -/
def matchProductAt (s : List Char) : Option (List Char) :=
  match takeAfter dpChars s with
  | some rest => codeHere rest
  | none =>
    match takeAfter gpChars s with
    | some rest => codeHere rest
    | none => none

/-- re.search of the product-code pattern: the leftmost start position at
which the anchored pattern matches, scanning left to right. -/
def searchProduct : List Char → Option (List Char)
  | [] => none
  | c :: rest =>
    match matchProductAt (c :: rest) with
    | some code => some code
    | none => searchProduct rest

/-- The body of the candidate test (src/main.py:120-126): the marker guard,
then the regex search, then normalization to the canonical dp URL.  `none`
means the loop moves to the next candidate. -/
def hrefAccept (href : List Char) : Option String :=
  if listContains dpChars href || listContains gpChars href then
    match searchProduct href with
    | some code => some ("https://www.amazon.com/dp/" ++ String.mk code)
    | none => none
  else none

/-- The ordered CSS selector list (src/main.py:109-115). -/
def selectors : List String :=
  ["a.a-link-normal.s-no-outline",
   "a.a-link-normal.a-text-normal",
   "div.s-result-item h2 a",
   "div[data-component-type=\"s-search-result\"] h2 a",
   "div.s-result-item a.a-link-normal"]

/-- The inner loop over one selector's candidates, in document order. -/
def scanLinks : List (List Char) → Option String
  | [] => none
  | h :: rest =>
    match hrefAccept h with
    | some u => some u
    | none => scanLinks rest

/-- The outer loop over the selector list.  `soup` maps a CSS selector to the
href attributes of the elements it matches, in document order. -/
def scanSelectors (soup : String → List (List Char)) : List String → Option String
  | [] => none
  | s :: rest =>
    match scanLinks (soup s) with
    | some u => some u
    | none => scanSelectors soup rest

/-- The selector loop of get_first_product_link (src/main.py:117-126). -/
def extractProduct (soup : String → List (List Char)) : Option String :=
  scanSelectors soup selectors

/-- Either product-path marker occurs in the href. -/
def markerIn (h : List Char) : Bool := listContains dpChars h || listContains gpChars h

/-- C1's reading of extraction: the first pattern yielding any candidates
wins outright, and the result comes from the first candidate href containing
a marker. -/
def claimFirstPattern (soup : String → List (List Char)) : Option String :=
  match selectors.find? (fun s => !(soup s).isEmpty) with
  | none => none
  | some s =>
    match (soup s).find? markerIn with
    | none => none
    | some h =>
      (searchProduct h).map (fun code => "https://www.amazon.com/dp/" ++ String.mk code)

/-- A results page on which the first selector matches one chrome link with
no product marker while the second selector matches a genuine product link. -/
def splitSoup : String → List (List Char) := fun s =>
  if s = "a.a-link-normal.s-no-outline" then [('/' :: ('n' :: "omarker".data))]
  else if s = "a.a-link-normal.a-text-normal" then ["/dp/B012345678".data]
  else []

lemma scanLinks_eq_findSome (hs : List (List Char)) :
    scanLinks hs = hs.findSome? hrefAccept := by
  induction hs with
  | nil => rfl
  | cons h rest ih =>
    simp only [scanLinks, List.findSome?]
    cases hrefAccept h <;> simp [ih]

lemma scanSelectors_eq_findSome (soup : String → List (List Char)) (sel : List String) :
    scanSelectors soup sel = ((sel.map soup).flatten).findSome? hrefAccept := by
  induction sel with
  | nil => rfl
  | cons s rest ih =>
    simp only [scanSelectors, List.map_cons, List.flatten_cons, List.findSome?_append]
    rw [scanLinks_eq_findSome]
    cases (soup s).findSome? hrefAccept <;> simp [ih]

lemma codeHere_ok (s code : List Char) (h : codeHere s = some code) :
    code.length = 10 ∧ code.all isCodeChar = true := by
  unfold codeHere at h
  by_cases hc : ((s.take 10).length = 10 && (s.take 10).all isCodeChar) = true
  · rw [if_pos hc] at h
    cases h
    simpa using hc
  · rw [if_neg hc] at h; cases h

lemma matchProductAt_ok (s code : List Char) (h : matchProductAt s = some code) :
    code.length = 10 ∧ code.all isCodeChar = true := by
  unfold matchProductAt at h
  cases hdp : takeAfter dpChars s with
  | some rest => rw [hdp] at h; exact codeHere_ok rest code h
  | none =>
    rw [hdp] at h
    cases hgp : takeAfter gpChars s with
    | some rest => rw [hgp] at h; exact codeHere_ok rest code h
    | none => rw [hgp] at h; cases h

lemma searchProduct_code_ok (s code : List Char) (h : searchProduct s = some code) :
    code.length = 10 ∧ code.all isCodeChar = true := by
  induction s with
  | nil => cases h
  | cons c rest ih =>
    simp only [searchProduct] at h
    cases hm : matchProductAt (c :: rest) with
    | some code2 =>
      rw [hm] at h
      cases h
      exact matchProductAt_ok _ _ hm
    | none =>
      rw [hm] at h
      exact ih h

lemma searchProduct_position (s code : List Char) (h : searchProduct s = some code) :
    ∃ i, matchProductAt (s.drop i) = some code := by
  induction s with
  | nil => cases h
  | cons c rest ih =>
    simp only [searchProduct] at h
    cases hm : matchProductAt (c :: rest) with
    | some code2 =>
      rw [hm] at h
      cases h
      exact ⟨0, hm⟩
    | none =>
      rw [hm] at h
      obtain ⟨i, hi⟩ := ih h
      exact ⟨i + 1, by simpa using hi⟩

lemma hrefAccept_shape (href : List Char) (u : String)
    (h : hrefAccept href = some u) :
    ∃ code, code.length = 10 ∧ code.all isCodeChar = true ∧
      u = "https://www.amazon.com/dp/" ++ String.mk code := by
  unfold hrefAccept at h
  by_cases hm : (listContains dpChars href || listContains gpChars href) = true
  · rw [if_pos hm] at h
    cases hs : searchProduct href with
    | none => rw [hs] at h; cases h
    | some code =>
      rw [hs] at h
      refine ⟨code, ?_, ?_, by cases h; rfl⟩
      · have := searchProduct_code_ok href code hs
        exact this.1
      · have := searchProduct_code_ok href code hs
        exact this.2
  · rw [if_neg hm] at h; cases h

/-- C1 (counterexample): on `splitSoup` the first selector yields a candidate
(so under the claim it wins and, containing no marker, extraction would
return nothing), yet the code goes on to the second selector and extracts a
product link from it. -/
theorem extract_first_pattern_cex :
    splitSoup "a.a-link-normal.s-no-outline" = [("/nomarker".data)] ∧
      markerIn ("/nomarker".data) = false ∧
      claimFirstPattern splitSoup = none ∧
      extractProduct splitSoup = some "https://www.amazon.com/dp/B012345678" := by
  refine ⟨by decide, by decide, by decide, by decide⟩

/-- C1 (amended): extraction scans selectors in order and, within a selector,
candidates in document order — equivalently a single prioritized scan of the
flattened candidate list — and returns the first candidate whose href passes
the marker test and yields a 10-character [A-Z0-9] code, normalized to the
canonical dp URL; a pattern whose candidates all fail does not stop the scan. -/
theorem extract_priority_scan :
    (∀ soup : String → List (List Char),
        extractProduct soup = ((selectors.map soup).flatten).findSome? hrefAccept) ∧
      (∀ soup : String → List (List Char), ∀ u : String,
        extractProduct soup = some u →
          ∃ href, href ∈ (selectors.map soup).flatten ∧ hrefAccept href = some u ∧
            ∃ code, code.length = 10 ∧ code.all isCodeChar = true ∧
              u = "https://www.amazon.com/dp/" ++ String.mk code) := by
  constructor
  · intro soup
    exact scanSelectors_eq_findSome soup selectors
  · intro soup u h
    rw [extractProduct, scanSelectors_eq_findSome] at h
    obtain ⟨href, hmem, hacc⟩ := List.exists_of_findSome?_eq_some h
    exact ⟨href, hmem, hacc, hrefAccept_shape href u hacc⟩

/-- The path segment right after the first occurrence of a marker: the
characters following it up to the next slash. -/
def segAfterMarker (pat : List Char) : List Char → Option (List Char)
  | [] => none
  | c :: rest =>
    match takeAfter pat (c :: rest) with
    | some tail => some (tail.takeWhile (fun d => !(d == '/')))
    | none => segAfterMarker pat rest

/-- A code character is never a lowercase letter. -/
lemma codeChar_not_lower (c : Char) (h : isCodeChar c = true) : isLowerAlpha c = false := by
  cases hl : isLowerAlpha c
  · rfl
  · exfalso
    simp only [isCodeChar, Bool.or_eq_true, Bool.and_eq_true, decide_eq_true_eq] at h
    simp only [isLowerAlpha, Bool.and_eq_true, decide_eq_true_eq] at hl
    rcases h with ⟨-, h2⟩ | ⟨-, h2⟩
    · exact absurd (le_trans hl.1 h2) (by decide)
    · exact absurd (le_trans hl.1 h2) (by decide)

/-- C10 (counterexample): the href /dp/B012345678x has a path segment after
the marker containing a lowercase letter, yet a code is extracted from it and
the candidate is accepted, against the claim that such a candidate is skipped. -/
theorem code_case_cex :
    segAfterMarker dpChars ("/dp/B012345678x".data) = some ("B012345678x".data) ∧
      ("B012345678x".data).any isLowerAlpha = true ∧
      hrefAccept ("/dp/B012345678x".data) =
        some "https://www.amazon.com/dp/B012345678" := by
  refine ⟨by decide, by decide, by decide⟩

/-- C10 (amended): the code match is case-sensitive — any extracted code is
ten characters, all uppercase letters or digits and none lowercase, taken at
some marker occurrence — and a candidate is skipped exactly when no position
of its href matches the pattern; in particular an all-lowercase code such as
/dp/b012345678 is skipped, though a lowercase letter beyond the ten matched
characters does not prevent extraction. -/
theorem code_case_sensitive :
    (∀ href code : List Char, searchProduct href = some code →
        code.length = 10 ∧ code.all isCodeChar = true ∧
          code.all (fun c => !isLowerAlpha c) = true ∧
          ∃ i, matchProductAt (href.drop i) = some code) ∧
      (∀ href : List Char, searchProduct href = none → hrefAccept href = none) ∧
      hrefAccept ("/dp/b012345678".data) = none := by
  refine ⟨?_, ?_, by decide⟩
  · intro href code h
    obtain ⟨hlen, hall⟩ := searchProduct_code_ok href code h
    refine ⟨hlen, hall, ?_, searchProduct_position href code h⟩
    rw [List.all_eq_true] at hall ⊢
    intro c hc
    simpa using codeChar_not_lower c (hall c hc)
  · intro href h
    unfold hrefAccept
    rw [h]
    cases hm : (listContains dpChars href || listContains gpChars href) <;> simp

/-- An HTTP response: status, body text and the resolved final URL. -/
structure Response where
  status_code : Nat
  text : String
  url : String
deriving DecidableEq

/-- What one physical attempt inside make_request does: the GET raises, or
it returns a response. -/
inductive AttemptOutcome where
  | raise : AttemptOutcome
  | resp : Response → AttemptOutcome
deriving DecidableEq

/-- The retry loop the backoff decorator wraps around make_request
(src/main.py:48-67), with max_tries = 5.  `att i` is the outcome of the
i-th physical attempt.  A 503 response sleeps an extra pause and raises, so
it counts as a failed attempt.  Returns (result, attempts made, extra
503 pauses taken). -/
def backoffLoop (att : Nat → AttemptOutcome) : Nat → Nat → Except Unit Response × Nat × Nat
  | _, 0 => (Except.error (), 0, 0)
  | i, fuel + 1 =>
    match att i with
    | AttemptOutcome.resp r =>
      if r.status_code = 503 then
        if fuel = 0 then (Except.error (), 1, 1)
        else
          let rest := backoffLoop att (i + 1) fuel
          (rest.1, rest.2.1 + 1, rest.2.2 + 1)
      else (Except.ok r, 1, 0)
    | AttemptOutcome.raise =>
      if fuel = 0 then (Except.error (), 1, 0)
      else
        let rest := backoffLoop att (i + 1) fuel
        (rest.1, rest.2.1 + 1, rest.2.2)

/-- make_request as the caller sees it: at most 5 attempts, first success
returned, exhaustion surfaces the exception. -/
def make_request (att : Nat → AttemptOutcome) : Except Unit Response × Nat × Nat :=
  backoffLoop att 0 5

/-- The spec's resilience scenario: two 503 responses, then a 200. -/
def seq503 : Nat → AttemptOutcome := fun i =>
  if i < 2 then AttemptOutcome.resp ⟨503, "", ""⟩
  else AttemptOutcome.resp ⟨200, "results", "https://www.amazon.com/s?k=q"⟩

lemma backoffLoop_attempts_le (att : Nat → AttemptOutcome) (fuel i : Nat) :
    (backoffLoop att i fuel).2.1 ≤ fuel := by
  induction fuel generalizing i with
  | zero => simp [backoffLoop]
  | succ fuel ih =>
    cases hatt : att i with
    | resp r =>
      by_cases h503 : r.status_code = 503
      · by_cases hf : fuel = 0
        · simp [backoffLoop, hatt, h503, hf]
        · simp only [backoffLoop, hatt, if_pos h503, if_neg hf]
          have := ih (i + 1)
          omega
      · simp [backoffLoop, hatt, h503]
    | raise =>
      by_cases hf : fuel = 0
      · simp [backoffLoop, hatt, hf]
      · simp only [backoffLoop, hatt, if_neg hf]
        have := ih (i + 1)
        omega

lemma backoffLoop_congr (a1 a2 : Nat → AttemptOutcome) (fuel i : Nat)
    (h : ∀ j, i ≤ j → j < i + fuel → a1 j = a2 j) :
    backoffLoop a1 i fuel = backoffLoop a2 i fuel := by
  induction fuel generalizing i with
  | zero => rfl
  | succ fuel ih =>
    have hi : a1 i = a2 i := h i (le_refl i) (by omega)
    have hrest : backoffLoop a1 (i + 1) fuel = backoffLoop a2 (i + 1) fuel :=
      ih (i + 1) (fun j hj1 hj2 => h j (by omega) (by omega))
    cases hatt : a2 i with
    | resp r =>
      by_cases h503 : r.status_code = 503
      · by_cases hf : fuel = 0
        · simp [backoffLoop, hi, hatt, h503, hf]
        · simp [backoffLoop, hi, hatt, h503, hf, hrest]
      · simp [backoffLoop, hi, hatt, h503]
    | raise =>
      by_cases hf : fuel = 0
      · simp [backoffLoop, hi, hatt, hf]
      · simp [backoffLoop, hi, hatt, hf, hrest]

/-- C3: make_request makes at most 5 attempts; its behaviour depends only on
the first 5 attempt outcomes, so no 6th attempt is ever consulted; the
sequence 503, 503, 200 returns the 200 response in 3 attempts after exactly
two extra overload pauses; five straight failures surface the error after
exactly 5 attempts. -/
theorem make_request_retry_policy :
    (∀ att : Nat → AttemptOutcome, (make_request att).2.1 ≤ 5) ∧
      (∀ a1 a2 : Nat → AttemptOutcome,
        (∀ i, i < 5 → a1 i = a2 i) → make_request a1 = make_request a2) ∧
      make_request seq503 =
        (Except.ok ⟨200, "results", "https://www.amazon.com/s?k=q"⟩, 3, 2) ∧
      make_request (fun _ => AttemptOutcome.raise) = (Except.error (), 5, 0) := by
  refine ⟨fun att => backoffLoop_attempts_le att 5 0, ?_, rfl, rfl⟩
  intro a1 a2 h
  exact backoffLoop_congr a1 a2 5 0 (fun j hj1 hj2 => h j (by omega))

/-- The outcome of one whole make_request call as the orchestrator sees it:
an exception escaped it, or it returned a response.  A returned response
never carries status 503 (a 503 is turned into an exception inside
make_request); the environments below respect this. -/
inductive FetchOutcome where
  | exn : FetchOutcome
  | resp : Response → FetchOutcome
deriving DecidableEq

/-- The ambient world of one run: what each make_request call on a URL
yields, and what BeautifulSoup's select finds in a body for each selector
(the hrefs of the matched elements, in document order). -/
structure Env where
  fetch : String → FetchOutcome
  soup : String → String → List (List Char)

/-- The try-block body of get_first_product_link (src/main.py:98-129): an
error means an exception reached the handler. -/
def getFirstProductLinkBody (env : Env) (search_url : String) : Except Unit String :=
  match env.fetch search_url with
  | FetchOutcome.exn => Except.error ()
  | FetchOutcome.resp r =>
    if r.status_code ≠ 200 then Except.ok search_url
    else
      match extractProduct (env.soup r.text) with
      | some u => Except.ok u
      | none => Except.ok search_url

/-- get_first_product_link: the handler converts any exception into the
search URL (src/main.py:131-133). -/
def get_first_product_link (env : Env) (search_url : String) : String :=
  match getFirstProductLinkBody env search_url with
  | Except.ok u => u
  | Except.error _ => search_url

/-- The direct link built from a record's stripped identifier. -/
def directUrl (row : Row) : String :=
  "https://www.amazon.com/dp/" ++ pyStripStr (row.upc.getD "")

/-- The direct-identifier attempt of process_book (src/main.py:156-168):
`some u` means the direct link u was accepted and returned; `none` means any
of the fall-through paths (absent or invalid identifier, exception during
the fetch, non-200 status, or a final URL without the dp/ substring). -/
def directCheck (env : Env) (row : Row) : Option String :=
  if cellPresent row.upc then
    if is_valid_isbn (pyStripStr (row.upc.getD "")) then
      match env.fetch (directUrl row) with
      | FetchOutcome.exn => none
      | FetchOutcome.resp r =>
        if r.status_code = 200 && listContains dpLoose r.url.data then some (directUrl row)
        else none
    else none
  else none

/-- process_book (src/main.py:151-174). -/
def process_book (env : Env) (row : Row) : String :=
  match directCheck env row with
  | some u => u
  | none =>
    let search_url := create_search_url row
    if search_url = "" then "" else get_first_product_link env search_url

/-- The per-record pass of process_books_csv (src/main.py:178): the frame
produced by df.apply plus the appended link column. -/
def process_books (env : Env) (rows : List Row) : List (Row × String) :=
  rows.map (fun r => (r, process_book env r))

lemma amazon_dp_split (x : String) :
    "https://www.amazon.com/dp/" ++ x = "https://www.amazon.com/" ++ ("dp/" ++ x) := by
  rw [← String.append_assoc]
  congr 1

lemma amazon_search_split (q : String) :
    "https://www.amazon.com/s?k=" ++ q ++ "&i=stripbooks" =
      "https://www.amazon.com/" ++ ("s?k=" ++ q ++ "&i=stripbooks") := by
  rw [← String.append_assoc, ← String.append_assoc]
  congr 2

lemma append_ne_empty (s t : String) (h : s.data ≠ []) : s ++ t ≠ "" := by
  intro hc
  apply h
  have h2 : (s ++ t).data = ([] : List Char) := by rw [hc]
  rw [String.data_append] at h2
  exact (List.append_eq_nil.mp h2).1

lemma extractProduct_canonical (soup : String → List (List Char)) (u : String)
    (h : extractProduct soup = some u) :
    ∃ code, code.length = 10 ∧ code.all isCodeChar = true ∧
      u = "https://www.amazon.com/dp/" ++ String.mk code := by
  rw [extractProduct, scanSelectors_eq_findSome] at h
  obtain ⟨href, -, hacc⟩ := List.exists_of_findSome?_eq_some h
  exact hrefAccept_shape href u hacc

lemma get_first_product_link_cases (env : Env) (u : String) :
    get_first_product_link env u = u ∨
      ∃ code, code.length = 10 ∧ code.all isCodeChar = true ∧
        get_first_product_link env u = "https://www.amazon.com/dp/" ++ String.mk code := by
  cases hf : env.fetch u with
  | exn =>
    left
    simp [get_first_product_link, getFirstProductLinkBody, hf]
  | resp r =>
    by_cases hs : r.status_code = 200
    · cases he : extractProduct (env.soup r.text) with
      | none => left; simp [get_first_product_link, getFirstProductLinkBody, hf, hs, he]
      | some v =>
        right
        obtain ⟨code, hlen, hall, hv⟩ := extractProduct_canonical (env.soup r.text) v he
        refine ⟨code, hlen, hall, ?_⟩
        rw [← hv]
        simp [get_first_product_link, getFirstProductLinkBody, hf, hs, he]
    · left
      simp [get_first_product_link, getFirstProductLinkBody, hf, hs]

lemma get_first_product_link_ne_empty (env : Env) (u : String) (hu : u ≠ "") :
    get_first_product_link env u ≠ "" := by
  rcases get_first_product_link_cases env u with h | ⟨code, -, -, h⟩
  · rw [h]; exact hu
  · rw [h]
    exact append_ne_empty "https://www.amazon.com/dp/" (String.mk code) (by decide)

lemma directCheck_iff (env : Env) (row : Row) (u : String) :
    directCheck env row = some u ↔
      cellPresent row.upc = true ∧
        is_valid_isbn (pyStripStr (row.upc.getD "")) = true ∧ u = directUrl row ∧
        ∃ r, env.fetch (directUrl row) = FetchOutcome.resp r ∧
          r.status_code = 200 ∧ listContains dpLoose r.url.data = true := by
  by_cases hc : cellPresent row.upc = true
  · by_cases hv : is_valid_isbn (pyStripStr (row.upc.getD "")) = true
    · cases hf : env.fetch (directUrl row) with
      | exn =>
        have hL : directCheck env row = none := by
          simp [directCheck, hc, hv, hf]
        rw [hL]
        constructor
        · intro h; cases h
        · rintro ⟨-, -, -, r2, hr2, -⟩
          cases hr2
      | resp r =>
        by_cases hok : (r.status_code = 200 && listContains dpLoose r.url.data) = true
        · have hL : directCheck env row = some (directUrl row) := by
            simp only [directCheck, hc, hv, hf, if_true, if_pos hok]
          rw [hL, Option.some_inj]
          simp only [Bool.and_eq_true, decide_eq_true_eq] at hok
          constructor
          · intro hu
            exact ⟨hc, hv, hu.symm, r, rfl, hok.1, hok.2⟩
          · rintro ⟨-, -, hu, -⟩
            exact hu.symm
        · have hL : directCheck env row = none := by
            simp only [directCheck, hc, hv, hf, if_true, if_neg hok]
          rw [hL]
          simp only [Bool.and_eq_true, decide_eq_true_eq] at hok
          constructor
          · intro h; cases h
          · rintro ⟨-, -, -, r2, hr2, h200, hdp⟩
            cases hr2
            exact (hok ⟨h200, hdp⟩).elim
    · have hL : directCheck env row = none := by
        simp [directCheck, hv]
      rw [hL]
      constructor
      · intro h; cases h
      · rintro ⟨-, hv2, -⟩; exact (hv hv2).elim
  · have hL : directCheck env row = none := by
      simp [directCheck, hc]
    rw [hL]
    constructor
    · intro h; cases h
    · rintro ⟨hc2, -⟩; exact (hc hc2).elim

lemma directCheck_none_of_ineligible (env : Env) (row : Row)
    (h : cellPresent row.upc = false ∨ is_valid_isbn (pyStripStr (row.upc.getD "")) = false) :
    directCheck env row = none := by
  unfold directCheck
  rcases h with h | h
  · simp [h]
  · by_cases hc : cellPresent row.upc = true
    · simp [hc, h]
    · simp [hc]

lemma process_book_of_direct_none (env : Env) (row : Row)
    (h : directCheck env row = none) :
    process_book env row =
      if create_search_url row = "" then ""
      else get_first_product_link env (create_search_url row) := by
  unfold process_book
  rw [h]

lemma create_search_url_shape (row : Row) :
    create_search_url row = "" ∨
      create_search_url row =
        "https://www.amazon.com/s?k=" ++ pyQuote (joinSpace (create_search_parts row)) ++
          "&i=stripbooks" := by
  unfold create_search_url
  by_cases h : (create_search_parts row).isEmpty = true
  · left; rw [if_pos h]
  · right; rw [if_neg h]

/-- An environment in which every make_request call raises. -/
def raiseEnv : Env := ⟨fun _ => FetchOutcome.exn, fun _ _ => []⟩

/-- A record with a valid identifier and a title. -/
def hobbitIsbnRow : Row :=
  { title := some "The Hobbit", author := none, yr := none, ed := none,
    upc := some "0134685997" }

/-- C2 (counterexample): with a valid identifier and every fetch raising, the
exceptions are caught, but the record's link is the search URL — not the
empty string the claim requires of a record whose processing raised. -/
theorem record_exception_cex :
    process_book raiseEnv hobbitIsbnRow = "https://www.amazon.com/s?k=The%20Hobbit&i=stripbooks" ∧
      process_book raiseEnv hobbitIsbnRow ≠ "" ∧
      is_valid_isbn (pyStripStr (hobbitIsbnRow.upc.getD "")) = true ∧
      raiseEnv.fetch (directUrl hobbitIsbnRow) = FetchOutcome.exn := by
  refine ⟨by decide, by decide, by decide, rfl⟩

/-- C2 (amended): fetch exceptions are handled inside process_book rather
than at a per-record boundary — when every fetch raises, the direct path
falls through and the search path returns the search URL (empty only when no
query is buildable); in general the link is empty exactly when no direct
link was accepted and no query could be built, so a caught exception does
not by itself produce an empty link. -/
theorem record_exception_handled :
    (∀ (env : Env) (row : Row), (∀ u, env.fetch u = FetchOutcome.exn) →
        process_book env row = (if create_search_url row = "" then "" else create_search_url row)) ∧
      (∀ (env : Env) (row : Row),
        process_book env row = "" ↔
          directCheck env row = none ∧ create_search_url row = "") := by
  constructor
  · intro env row hall
    have hd : directCheck env row = none := by
      unfold directCheck
      by_cases hc : cellPresent row.upc = true
      · by_cases hv : is_valid_isbn (pyStripStr (row.upc.getD "")) = true
        · simp [hc, hv, hall (directUrl row)]
        · simp [hc, hv]
      · simp [hc]
    rw [process_book_of_direct_none env row hd]
    by_cases hu : create_search_url row = ""
    · rw [if_pos hu, if_pos hu]
    · rw [if_neg hu, if_neg hu]
      unfold get_first_product_link getFirstProductLinkBody
      rw [hall (create_search_url row)]
  · intro env row
    constructor
    · intro h
      cases hd : directCheck env row with
      | some u =>
        exfalso
        obtain ⟨-, -, hu, -⟩ := (directCheck_iff env row u).mp hd
        unfold process_book at h
        rw [hd] at h
        have h2 : u = "" := h
        rw [h2] at hu
        exact append_ne_empty "https://www.amazon.com/dp/"
          (pyStripStr (row.upc.getD "")) (by decide) hu.symm
      | none =>
        refine ⟨rfl, ?_⟩
        rw [process_book_of_direct_none env row hd] at h
        by_cases hu : create_search_url row = ""
        · exact hu
        · rw [if_neg hu] at h
          exact absurd h (get_first_product_link_ne_empty env (create_search_url row) hu)
    · rintro ⟨hd, hu⟩
      rw [process_book_of_direct_none env row hd, if_pos hu]

/-- The environment of C6's counterexample: the direct link resolves with
status 200 to a /gp/product/ URL (which carries a product-path marker but
not the substring dp/), and the search fetch raises. -/
def gpRedirectEnv : Env :=
  { fetch := fun u =>
      if u = "https://www.amazon.com/dp/0134685997" then
        FetchOutcome.resp ⟨200, "", "https://www.amazon.com/gp/product/0134685997"⟩
      else FetchOutcome.exn,
    soup := fun _ _ => [] }

/-- The record of C6's counterexample: a valid identifier and a title. -/
def algoRow : Row :=
  { title := some "Algorithms", author := none, yr := none, ed := none,
    upc := some "0134685997" }

/-- C6 (counterexample): the identifier is valid, the direct fetch returns
HTTP 200 and its final URL contains the product-path marker /gp/product/,
so under the claim the direct link is accepted; the code rejects it (the
final URL lacks the substring dp/) and falls through to the search path. -/
theorem direct_accept_cex :
    cellPresent algoRow.upc = true ∧
      is_valid_isbn (pyStripStr (algoRow.upc.getD "")) = true ∧
      gpRedirectEnv.fetch (directUrl algoRow) =
        FetchOutcome.resp ⟨200, "", "https://www.amazon.com/gp/product/0134685997"⟩ ∧
      markerIn ("https://www.amazon.com/gp/product/0134685997".data) = true ∧
      directCheck gpRedirectEnv algoRow = none ∧
      process_book gpRedirectEnv algoRow = "https://www.amazon.com/s?k=Algorithms&i=stripbooks" := by
  refine ⟨by decide, by decide, by decide, by decide, by decide, by decide⟩

/-- C6 (amended): the direct link is accepted as the ProductLink iff the
identifier is present and valid, the fetch returns a response with HTTP 200
and the final URL contains the substring dp/ (without a leading slash — a
/gp/product/ final URL is not accepted); in every other case, including a
fetch exception, processing transitions to the search path. -/
theorem direct_accept_iff :
    (∀ (env : Env) (row : Row) (u : String),
        directCheck env row = some u ↔
          cellPresent row.upc = true ∧
            is_valid_isbn (pyStripStr (row.upc.getD "")) = true ∧ u = directUrl row ∧
            ∃ r, env.fetch (directUrl row) = FetchOutcome.resp r ∧
              r.status_code = 200 ∧ listContains dpLoose r.url.data = true) ∧
      (∀ (env : Env) (row : Row) (u : String),
        directCheck env row = some u → process_book env row = u) ∧
      (∀ (env : Env) (row : Row),
        directCheck env row = none →
          process_book env row =
            (if create_search_url row = "" then ""
             else get_first_product_link env (create_search_url row))) := by
  refine ⟨directCheck_iff, ?_, process_book_of_direct_none⟩
  intro env row u h
  unfold process_book
  rw [h]

/-- C7: a record whose identifier is absent or invalid is resolved by the
search path alone — its link is the search-path computation, which yields
either the search URL itself or a canonical extracted product link — and
when additionally no query is buildable the link is the empty string. -/
theorem search_fallback :
    (∀ (env : Env) (row : Row),
        cellPresent row.upc = false ∨
            is_valid_isbn (pyStripStr (row.upc.getD "")) = false →
          process_book env row =
            (if create_search_url row = "" then ""
             else get_first_product_link env (create_search_url row))) ∧
      (∀ (env : Env) (u : String),
        get_first_product_link env u = u ∨
          ∃ code, code.length = 10 ∧ code.all isCodeChar = true ∧
            get_first_product_link env u = "https://www.amazon.com/dp/" ++ String.mk code) ∧
      (∀ (env : Env) (row : Row),
        cellPresent row.upc = false ∨
            is_valid_isbn (pyStripStr (row.upc.getD "")) = false →
          create_search_url row = "" → process_book env row = "") := by
  refine ⟨?_, get_first_product_link_cases, ?_⟩
  · intro env row h
    exact process_book_of_direct_none env row (directCheck_none_of_ineligible env row h)
  · intro env row h hu
    rw [process_book_of_direct_none env row (directCheck_none_of_ineligible env row h),
      if_pos hu]

/-- C8: processing a batch keeps exactly the input rows, in order, with every
pre-existing column value unchanged, and only pairs each row with its new
link value. -/
theorem process_books_frame :
    ∀ (env : Env) (rows : List Row),
      (process_books env rows).length = rows.length ∧
        (process_books env rows).map Prod.fst = rows ∧
        (∀ i : Nat, ∀ h : i < rows.length,
          (process_books env rows).get ⟨i, by simpa [process_books] using h⟩ =
            (rows.get ⟨i, h⟩, process_book env (rows.get ⟨i, h⟩))) := by
  intro env rows
  have hfst : (Prod.fst ∘ fun r => (r, process_book env r)) = (id : Row → Row) := rfl
  refine ⟨by simp [process_books], ?_, ?_⟩
  · rw [process_books, List.map_map, hfst, List.map_id]
  · intro i h
    simp [process_books]

/-- C9: every link process_book produces is empty or an
https://www.amazon.com/ URL of one of the program's three shapes: the direct
link dp/ followed by the record's validated stripped identifier, a canonical
extracted link dp/ followed by a 10-character [A-Z0-9] code, or the
books-scoped search URL built from the record's encoded query; no other
shape is reachable. -/
theorem link_shapes :
    ∀ (env : Env) (row : Row),
      process_book env row = "" ∨
        ((∃ rest, process_book env row = "https://www.amazon.com/" ++ rest) ∧
          ((process_book env row =
                "https://www.amazon.com/dp/" ++ pyStripStr (row.upc.getD "") ∧
              is_valid_isbn (pyStripStr (row.upc.getD "")) = true) ∨
            (∃ code, code.length = 10 ∧ code.all isCodeChar = true ∧
              process_book env row = "https://www.amazon.com/dp/" ++ String.mk code) ∨
            process_book env row =
              "https://www.amazon.com/s?k=" ++
                pyQuote (joinSpace (create_search_parts row)) ++ "&i=stripbooks")) := by
  intro env row
  cases hd : directCheck env row with
  | some u =>
    right
    obtain ⟨-, hv, hu, -⟩ := (directCheck_iff env row u).mp hd
    have hp : process_book env row = u := by
      unfold process_book
      rw [hd]
    rw [hp, hu]
    unfold directUrl
    constructor
    · exact ⟨"dp/" ++ pyStripStr (row.upc.getD ""), amazon_dp_split _⟩
    · exact Or.inl ⟨rfl, hv⟩
  | none =>
    rw [process_book_of_direct_none env row hd]
    by_cases hu : create_search_url row = ""
    · left; rw [if_pos hu]
    · right
      rw [if_neg hu]
      rcases create_search_url_shape row with hshape | hshape
      · exact absurd hshape hu
      · rcases get_first_product_link_cases env (create_search_url row) with
          hg | ⟨code, hlen, hall, hg⟩
        · rw [hg, hshape]
          constructor
          · exact ⟨"s?k=" ++ pyQuote (joinSpace (create_search_parts row)) ++ "&i=stripbooks",
              amazon_search_split _⟩
          · exact Or.inr (Or.inr rfl)
        · rw [hg]
          constructor
          · exact ⟨"dp/" ++ String.mk code, amazon_dp_split _⟩
          · exact Or.inr (Or.inl ⟨code, hlen, hall, rfl⟩)

end BookLink
